import Mathlib

/-! mc: listing, cat and the session commands

A shallow embedding of `ls.go`, `cmd-cat.go`, `cmd-session.go`,
`print-structs.go` and `pkg/client/client.go`, followed by the properties
proved about them.

Conventions of the embedding.

* Go strings are Lean strings; Go `error` values are the inductive `GoError`,
  a `nil` error is `none`.
* Console output, channel receives and the calls that touch the outside world
  are recorded, in program order, in a list of `Effect`s.
* Library code the sources call (the `strings`, `os`, `io` packages of the Go
  distribution and the `iodine` error package) is modelled by the definitions
  of the first sections; code of the repository whose source is not available
  (`session.go`, the console package, the copy and sync executors) enters as
  fields of `Env`, or is modelled from the specification where said so.
-/

namespace Mc

/-! ## The `strings` package -/

/-- Go `strings.HasSuffix`. -/
def strings.HasSuffix (s suffix : String) : Bool :=
  decide (suffix.data <:+ s.data)

/-- Go `strings.TrimSuffix`: `s` without the trailing `suffix`, or `s` itself
when it does not end in `suffix`. -/
def strings.TrimSuffix (s suffix : String) : String :=
  if strings.HasSuffix s suffix then
    ⟨s.data.take (s.data.length - suffix.data.length)⟩
  else s

/-- The loop of `strings.Replace` with count `-1` for a non-empty `old`:
`skip` counts the characters of a match of `old` still to be dropped. -/
def strings.replaceFrom (old new : List Char) : Nat → List Char → List Char
  | _, [] => []
  | k + 1, _ :: cs => strings.replaceFrom old new k cs
  | 0, c :: cs =>
    if old <+: c :: cs then new ++ strings.replaceFrom old new (old.length - 1) cs
    else c :: strings.replaceFrom old new 0 cs

/-- Go `strings.Replace s old new (-1)` for a non-empty `old` (the only use in
the sources has `old = "/"`); an empty `old` leaves `s` unchanged here. -/
def strings.Replace (s old new : String) : String :=
  if old.data = [] then s else ⟨strings.replaceFrom old.data new.data 0 s.data⟩

/-- Go `unicode.IsSpace`. -/
def unicode.IsSpace (c : Char) : Bool :=
  let n := c.toNat
  (9 ≤ n ∧ n ≤ 13) ∨ n = 32 ∨ n = 0x85 ∨ n = 0xA0 ∨ n = 0x1680 ∨
    (0x2000 ≤ n ∧ n ≤ 0x200a) ∨ n = 0x2028 ∨ n = 0x2029 ∨ n = 0x202f ∨
    n = 0x205f ∨ n = 0x3000

/-- Go `strings.TrimSpace`. -/
def strings.TrimSpace (s : String) : String :=
  ⟨((s.data.dropWhile unicode.IsSpace).reverse.dropWhile unicode.IsSpace).reverse⟩

/-- Go `filepath.Join` of a directory and a plain file name, where the joined
path needs no cleaning. -/
def filepath.Join (dir name : String) : String :=
  dir ++ "/" ++ name

/-! ## Errors -/

/-- The Go error values the sources distinguish. -/
inductive GoError where
  /-- A `syscall.Errno`. -/
  | errno (n : Nat)
  /-- The value `os.ErrNotExist`. -/
  | ErrNotExist
  /-- The value `os.ErrPermission`. -/
  | ErrPermission
  /-- The value `io.EOF`. -/
  | EOF
  /-- An `*os.PathError`. -/
  | PathError (Op Path : String) (Err : GoError)
  /-- An `*os.LinkError`. -/
  | LinkError (Op Old New : String) (Err : GoError)
  /-- A `client.ISBrokenSymlink`. -/
  | ISBrokenSymlink (path : String)
  /-- An `errInvalidSessionID`. -/
  | errInvalidSessionID (id : String)
  /-- An `errNotConfigured`. -/
  | errNotConfigured
  /-- An `errUnsupportedScheme`. -/
  | errUnsupportedScheme (scheme url : String)
  /-- Any other error, by its message. -/
  | errorString (msg : String)
  /-- An `iodine.Error`: the embedded error and, per stack entry, the data
  attached to it. -/
  | iodine (EmbeddedError : GoError) (Stack : List (List (String × String)))
  deriving DecidableEq, Repr

deriving instance DecidableEq for Except

namespace syscall

def EPERM : Nat := 1
def ENOENT : Nat := 2
def EACCES : Nat := 13
def EPIPE : Nat := 32

end syscall

/-- The function `iodine.ToError`: the error an `iodine.Error` embeds, any
other error unchanged. -/
def iodine.ToError : GoError → GoError
  | .iodine e _ => e
  | e => e

/-- The function `iodine.New` on a non-nil error: an `iodine.Error` gets one
more stack entry carrying `data`, any other error is embedded in a fresh
`iodine.Error` with that one entry. -/
def iodine.New (err : GoError) (data : List (String × String)) : GoError :=
  match err with
  | .iodine e stack => .iodine e (stack ++ [data])
  | e => .iodine e [data]

/-- The function `underlyingError` of package `os`. -/
def os.underlyingError : GoError → GoError
  | .PathError _ _ e => e
  | .LinkError _ _ _ e => e
  | e => e

/-- Go `os.IsNotExist`. -/
def os.IsNotExist (err : GoError) : Bool :=
  os.underlyingError err = .errno syscall.ENOENT ∨ os.underlyingError err = .ErrNotExist

/-- Go `os.IsPermission`. -/
def os.IsPermission (err : GoError) : Bool :=
  os.underlyingError err = .errno syscall.EACCES ∨
    os.underlyingError err = .errno syscall.EPERM ∨
    os.underlyingError err = .ErrPermission

/-! ## File modes -/

/-- Go `os.FileMode`, a 32-bit set of flags. -/
abbrev os.FileMode := Nat

def os.ModeDir : os.FileMode := 2 ^ 31
def os.ModeSymlink : os.FileMode := 2 ^ 27
def os.ModeDevice : os.FileMode := 2 ^ 26
def os.ModeNamedPipe : os.FileMode := 2 ^ 25
def os.ModeSocket : os.FileMode := 2 ^ 24

/-- Go `os.ModeType`, the mask of the type bits. -/
def os.ModeType : os.FileMode :=
  os.ModeDir ||| os.ModeSymlink ||| os.ModeNamedPipe ||| os.ModeSocket ||| os.ModeDevice

/-- Go `FileMode.IsDir`. -/
def os.IsDir (m : os.FileMode) : Bool := m &&& os.ModeDir != 0

/-- Go `FileMode.IsRegular`. -/
def os.IsRegular (m : os.FileMode) : Bool := m &&& os.ModeType == 0

/-! ## `pkg/client/client.go` and `print-structs.go` -/

/-- The struct `client.Content`. `Time` is an instant, `Size` an `int64`. -/
structure client.Content where
  Name : String
  Time : Int
  Size : Int
  /-- The field `Type` of the source. -/
  Type_ : os.FileMode
  deriving DecidableEq, Repr

/-- The struct `client.ContentOnChannel`; both fields may be nil. -/
structure client.ContentOnChannel where
  Content : Option client.Content
  Err : Option GoError
  deriving DecidableEq, Repr

/-- The printer struct `Content` of `print-structs.go`. -/
structure Content where
  Filetype : String
  Time : String
  Size : String
  Name : String
  deriving DecidableEq, Repr

/-- The printer struct `ErrorMessage`. -/
structure ErrorMessage where
  Message : String
  Error : Option GoError
  deriving DecidableEq, Repr

/-- The printer struct `InfoMessage`. -/
structure InfoMessage where
  Message : String
  deriving DecidableEq, Repr

/-- What the run time and the formatting libraries contribute to
`parseContent`: `runtime.GOOS`, `Time.Local().Format`, `humanize.IBytes`. -/
structure Runtime where
  GOOS : String
  Format : Int → String → String
  IBytes : Nat → String

def printDate : String := "2006-01-02 15:04:05 MST"

/-- The path separator `parseContent` works with on Windows. -/
def backslash : String := ⟨[Char.ofNat 92]⟩

/-- The value `parseContent` leaves in `c.Name` (lines 55-61 of `ls.go`). -/
def parseContentName (rt : Runtime) (c : client.Content) : String :=
  if rt.GOOS = "windows" then
    strings.TrimSuffix (strings.Replace c.Name "/" backslash) backslash
  else
    strings.TrimSuffix c.Name "/"

/-- The function `parseContent` of `ls.go`: the printable record, and the
entry `c` as the call leaves it (its `Name` is overwritten). -/
def parseContent (rt : Runtime) (c : client.Content) : Content × client.Content :=
  let time := rt.Format c.Time printDate
  let filetype := if os.IsDir c.Type_ then "directory" else "file"
  let size := rt.IBytes (c.Size % 2 ^ 64).toNat
  let cName := parseContentName rt c
  let name :=
    if os.IsDir c.Type_ then
      if rt.GOOS = "windows" then cName ++ backslash else cName ++ "/"
    else cName
  ({ Filetype := filetype, Time := time, Size := size, Name := name },
   { c with Name := cName })

/-- The storage client interface `client.Client`, restricted to the methods
the modelled commands call. `List` is the content of the channel the method
returns, `URL` is `URL().String()`, and `GetObject` yields the reader and the
size. -/
structure client.Client (Reader : Type) where
  List : Bool → List client.ContentOnChannel
  GetObject : Int → Int → Except GoError (Reader × Int)
  URL : String

/-! ## Session records, events and effects -/

/-- Modelled from the spec: the session record `sessionV1` (its declaration, in
`session.go`, is not among the sources): schema version, identifier, command
type, root path and pending work; the sources read `SessionID`, `CommandType`,
`RootPath` and `URLs`. -/
structure sessionV1 where
  Version : String
  SessionID : String
  CommandType : String
  RootPath : String
  URLs : List String
  deriving DecidableEq, Repr

/-- An element of the channels `doCopyCmdSession` and `doSyncCmdSession`
return; `sessionExecute` reads its fields `Error` and `Done`. -/
structure SessionEvent where
  Error : Option GoError
  Done : Bool
  deriving DecidableEq, Repr

/-- What `console.Prints` is called with in the sources. -/
inductive Printable where
  | content (c : Content)
  | session (s : sessionV1)
  deriving DecidableEq, Repr

/-- The observable steps of a run, in program order. The console functions
other than `console.Fatals` print and return ("non-fatal errors are printed
inline and execution continues"). -/
inductive Effect where
  /-- A call of `console.Prints`. -/
  | Prints (p : Printable)
  /-- A call of `console.Errors`. -/
  | Errors (m : ErrorMessage)
  /-- A call of `console.Infos`. -/
  | Infos (m : InfoMessage)
  /-- A call of `console.Println`. -/
  | Println
  /-- A call of `console.Fatals`. -/
  | Fatals (m : ErrorMessage)
  /-- A call of `cli.ShowCommandHelpAndExit`. -/
  | ShowHelp (command : String)
  /-- An event received from the executor channel. -/
  | Recv (ev : SessionEvent)
  /-- A call of `saveSession`. -/
  | SaveSession (s : sessionV1)
  /-- A call of `bar.Finish`. -/
  | BarFinish
  deriving DecidableEq, Repr

/-! ## `ls.go`: `doList` -/

/-- How the loop of `doList` ends. -/
structure ListRun where
  /-- Console output so far. -/
  out : List Effect
  /-- The stream elements that were never received. -/
  unread : List client.ContentOnChannel
  /-- The variable `err` of `doList` after the loop. -/
  err : Option GoError
  /-- Whether `parseContent` was reached with a nil `Content`. -/
  panicked : Bool
  deriving DecidableEq, Repr

/-- The type switch of `doList`: whether the error is a
`client.ISBrokenSymlink`. -/
def isISBrokenSymlink : GoError → Bool
  | .ISBrokenSymlink _ => true
  | _ => false

/-- The `for ... range clnt.List(recursive)` loop of `doList` (lines 78-100),
on the elements still in the channel. -/
def doListLoop (rt : Runtime) : List client.ContentOnChannel → List Effect → ListRun
  | [], out => { out := out, unread := [], err := none, panicked := false }
  | contentCh :: rest, out =>
    match contentCh.Err with
    | some e =>
      if isISBrokenSymlink (iodine.ToError e) then
        doListLoop rt rest
          (out ++ [.Errors ⟨"Failed with", some (iodine.New (iodine.ToError e) [])⟩])
      else if os.IsNotExist (iodine.ToError e) || os.IsPermission (iodine.ToError e) then
        doListLoop rt rest (out ++ [.Errors ⟨"Failed with", some (iodine.New e [])⟩])
      else
        { out := out, unread := rest, err := some e, panicked := false }
    | none =>
      match contentCh.Content with
      | none => { out := out, unread := rest, err := none, panicked := true }
      | some c => doListLoop rt rest (out ++ [.Prints (.content (parseContent rt c).1)])

/-- The result of `doList`. -/
structure ListResult where
  out : List Effect
  unread : List client.ContentOnChannel
  panicked : Bool
  /-- The returned error; `none` is nil. -/
  ret : Option GoError
  deriving DecidableEq, Repr

/-- The function `doList` of `ls.go`. -/
def doList {Reader : Type} (rt : Runtime) (clnt : client.Client Reader) (recursive : Bool) :
    ListResult :=
  let run := doListLoop rt (clnt.List recursive) []
  { out := run.out, unread := run.unread, panicked := run.panicked,
    ret := match run.err with
      | some err => some (iodine.New err [("Target", clnt.URL)])
      | none => none }

/-! ## `cmd-cat.go`: `doCatCmd` -/

/-- The body `GetObject` returns: the bytes it delivers and the error that
follows them (`none`: end of file). -/
structure Reader where
  data : List Nat
  err : Option GoError
  deriving DecidableEq, Repr

/-- Standard output: the bytes written so far, and how many more bytes it
takes before a write fails with `fail` (`none`: it never fails). -/
structure Stdout where
  written : List Nat
  room : Option Nat
  fail : GoError
  deriving DecidableEq, Repr

/-- Go `io.CopyN dst src n`, byte by byte: copy until `n` bytes are written,
the destination fails or the source ends; a source that ends early without an
error of its own yields `io.EOF`. Returns the count, the error and the
destination. -/
def ioCopyN (dst : Stdout) (src : Reader) (n : Int) : Int × Option GoError × Stdout :=
  let wanted := src.data.take n.toNat
  match dst.room with
  | some r =>
    if r < wanted.length then
      ((r : Int), some dst.fail,
        { dst with written := dst.written ++ wanted.take r, room := some 0 })
    else
      let dst1 := { dst with written := dst.written ++ wanted, room := some (r - wanted.length) }
      if (wanted.length : Int) = n then (n, none, dst1)
      else if (wanted.length : Int) < n then
        ((wanted.length : Int), some (src.err.getD .EOF), dst1)
      else ((wanted.length : Int), none, dst1)
  | none =>
    let dst1 := { dst with written := dst.written ++ wanted }
    if (wanted.length : Int) = n then (n, none, dst1)
    else if (wanted.length : Int) < n then
      ((wanted.length : Int), some (src.err.getD .EOF), dst1)
    else ((wanted.length : Int), none, dst1)

/-- The result of `doCatCmd`: the message, the error, standard output, and
whether the deferred `reader.Close()` ran. -/
structure CatResult where
  msg : String
  err : Option GoError
  stdout : Stdout
  closed : Bool
  deriving DecidableEq, Repr

/-- The function `doCatCmd` of `cmd-cat.go`; `source2Client` is the function of
that name, whose source is not available. -/
def doCatCmd (source2Client : String → Except GoError (client.Client Reader))
    (stdout : Stdout) (sourceURL : String) : CatResult :=
  match source2Client sourceURL with
  | .error err =>
    ⟨"Unable to create client: " ++ sourceURL, some (iodine.New err []), stdout, false⟩
  | .ok sourceClnt =>
    match sourceClnt.GetObject 0 0 with
    | .error err =>
      ⟨"Unable to retrieve file: " ++ sourceURL, some (iodine.New err []), stdout, false⟩
    | .ok (reader, size) =>
      match ioCopyN stdout reader size with
      | (_, none, stdout1) => ⟨"", none, stdout1, true⟩
      | (_, some err, stdout1) =>
        match iodine.ToError err with
        | .PathError _ _ e =>
          if e = .errno syscall.EPIPE then ⟨"", none, stdout1, true⟩
          else
            ⟨"Writing data to stdout failed, unexpected problem.. please report this error",
              some (iodine.New err []), stdout1, true⟩
        | _ =>
          ⟨"Reading data from source failed: " ++ sourceURL, some (iodine.New err []),
            stdout1, true⟩

/-! ## The session directory and the process state -/

/-- A directory entry as `ioutil.ReadDir` reports it (`os.FileInfo`), with the
content of the file and whether `os.Remove` succeeds on it. -/
structure FileInfo where
  Name : String
  Mode : os.FileMode
  removable : Bool
  data : String
  deriving DecidableEq, Repr

/-- The file system as the session commands see it: the session directory
`dir` and its entries in the order `ioutil.ReadDir` lists them. -/
structure FS where
  dir : String
  entries : List FileInfo
  deriving DecidableEq, Repr

/-- Go `ioutil.ReadDir`. -/
def ioutil.ReadDir (fs : FS) (dirname : String) : Except GoError (List FileInfo) :=
  if dirname = fs.dir then .ok fs.entries
  else .error (.PathError "open" dirname (.errno syscall.ENOENT))

/-- Go `os.Stat`. -/
def os.Stat (fs : FS) (name : String) : Except GoError FileInfo :=
  match fs.entries.find? (fun e => filepath.Join fs.dir e.Name = name) with
  | some e => .ok e
  | none => .error (.PathError "stat" name (.errno syscall.ENOENT))

/-- Go `os.Remove`: the error, and the file system afterwards. -/
def os.Remove (fs : FS) (name : String) : Option GoError × FS :=
  match fs.entries.find? (fun e => filepath.Join fs.dir e.Name = name) with
  | none => (some (.PathError "remove" name (.errno syscall.ENOENT)), fs)
  | some e =>
    if e.removable then
      (none, { fs with entries := fs.entries.filter (fun e => filepath.Join fs.dir e.Name ≠ name) })
    else (some (.PathError "remove" name (.errno syscall.EACCES)), fs)

/-- The state of the process and of its surroundings: the file system, the
working directory, the directories `os.Chdir` can enter, and the effects so
far. -/
structure World where
  fs : FS
  cwd : String
  dirs : List String
  out : List Effect
  deriving DecidableEq, Repr

/-- Record one effect. -/
def World.emit (w : World) (e : Effect) : World :=
  { w with out := w.out ++ [e] }

/-- Go `os.Getwd`. -/
def os.Getwd (w : World) : Except GoError String :=
  if w.cwd ∈ w.dirs then .ok w.cwd
  else .error (.PathError "getwd" w.cwd (.errno syscall.ENOENT))

/-- Go `os.Chdir`. -/
def os.Chdir (w : World) (dir : String) : Option GoError × World :=
  if dir ∈ w.dirs then (none, { w with cwd := dir })
  else (some (.PathError "chdir" dir (.errno syscall.ENOENT)), w)

/-- How a command ends: it returns, or the process exits with a code. -/
inductive Outcome (α : Type) where
  | ret (a : α) (w : World)
  | exit (code : Int) (w : World)
  deriving DecidableEq, Repr

/-- Modelled from the spec: `console.Fatals` of the console package, whose
source is not available: "fatal errors terminate the process with a non-zero
exit code and a human-readable message". -/
def console.Fatals {α : Type} (m : ErrorMessage) (w : World) : Outcome α :=
  .exit 1 (w.emit (.Fatals m))

/-- The function `cli.ShowCommandHelpAndExit` of the command line library. -/
def cli.ShowCommandHelpAndExit {α : Type} (command : String) (code : Int) (w : World) :
    Outcome α :=
  .exit code (w.emit (.ShowHelp command))

/-- The functions and globals of the repository the session commands use and
whose source is not available. The executors are given by the events they put
on their channel. -/
structure Env where
  globalQuietFlag : Bool
  getSessionDir : Except GoError String
  getSessionFile : String → Except GoError String
  /-- The global `sessionDir`. -/
  sessionDir : String
  isSessionDirExists : World → Bool
  createSessionDir : World → Option GoError × World
  loadSession : FS → String → Except GoError sessionV1
  saveSession : FS → sessionV1 → Option GoError × FS
  doCopyCmdSession : sessionV1 → List SessionEvent
  doSyncCmdSession : sessionV1 → List SessionEvent

/-! ## `cmd-session.go` -/

/-- The loop of `listSessions` (lines 70-78). -/
def listSessionsLoop (env : Env) : List FileInfo → World → Option GoError × World
  | [], w => (none, w)
  | session :: rest, w =>
    if os.IsRegular session.Mode then
      match env.loadSession w.fs session.Name with
      | .error err => (some (iodine.New err []), w)
      | .ok s => listSessionsLoop env rest (w.emit (.Prints (.session s)))
    else listSessionsLoop env rest w

/-- The function `listSessions`; its parameter is overwritten at once. -/
def listSessions (env : Env) (_sdir : String) (w : World) : Option GoError × World :=
  match env.getSessionDir with
  | .error err => (some (iodine.New err []), w)
  | .ok sdir =>
    match ioutil.ReadDir w.fs sdir with
    | .error err => (some (iodine.New err []), w)
    | .ok sessions => listSessionsLoop env sessions w

/-- The function `resumeSession`. -/
def resumeSession (env : Env) (sid : String) (w : World) :
    Except GoError sessionV1 × World :=
  match env.getSessionFile sid with
  | .error err => (.error (iodine.New err []), w)
  | .ok sfile =>
    match os.Stat w.fs sfile with
    | .error _ => (.error (iodine.New (.errInvalidSessionID sid) []), w)
    | .ok _ =>
      match env.loadSession w.fs sid with
      | .error err => (.error (iodine.New err []), w)
      | .ok s => (.ok s, w)

/-- The loop of `clearSession` for `all` (lines 108-115). -/
def clearSessionLoop (sdir : String) : List FileInfo → FS → Option GoError × FS
  | [], fs => (none, fs)
  | session :: rest, fs =>
    if os.IsRegular session.Mode then
      match os.Remove fs (filepath.Join sdir session.Name) with
      | (some err, fs1) => (some (iodine.New err []), fs1)
      | (none, fs1) => clearSessionLoop sdir rest fs1
    else clearSessionLoop sdir rest fs

/-- The function `clearSession`. -/
def clearSession (env : Env) (sid : String) (w : World) : Option GoError × World :=
  if sid = "all" then
    match env.getSessionDir with
    | .error err => (some (iodine.New err []), w)
    | .ok sdir =>
      match ioutil.ReadDir w.fs sdir with
      | .error err => (some (iodine.New err []), w)
      | .ok sessions =>
        let r := clearSessionLoop sdir sessions w.fs
        (r.1, { w with fs := r.2 })
  else
    match env.getSessionFile sid with
    | .error err => (some (iodine.New err []), w)
    | .ok sfile =>
      match os.Remove w.fs sfile with
      | (some _, fs1) => (some (iodine.New (.errInvalidSessionID sid) []), { w with fs := fs1 })
      | (none, fs1) => (none, { w with fs := fs1 })

/-- The message `sessionExecute` prints before it exits. -/
def sessionTerminatedMessage (s : sessionV1) : InfoMessage :=
  ⟨"Session terminated. To resume session type ‘mc session resume " ++ s.SessionID ++ "’"⟩

/-- The loop of `sessionExecute` over the executor channel; the `cp` case
(lines 132-153) and the `sync` case (lines 155-176) have the same body. -/
def sessionExecuteLoop (env : Env) (s : sessionV1) : List SessionEvent → World → Outcome Unit
  | [], w => .ret () w
  | ev :: rest, w =>
    let w1 := w.emit (.Recv ev)
    let w2 := match ev.Error with
      | some err => w1.emit (.Errors ⟨"Failed with", some (iodine.New err [])⟩)
      | none => w1
    if ev.Done then
      let saved := env.saveSession w2.fs s
      let w3 := { w2 with fs := saved.2, out := w2.out ++ [.SaveSession s] }
      match saved.1 with
      | some err => console.Fatals ⟨"Failed with", some (iodine.New err [])⟩ w3
      | none => .exit 0 ((w3.emit .Println).emit (.Infos (sessionTerminatedMessage s)))
    else sessionExecuteLoop env s rest w2

/-- The function `sessionExecute`; the progress bar it hands to the executor
has no part in what it does itself. -/
def sessionExecute (env : Env) (s : sessionV1) (w : World) : Outcome Unit :=
  if s.CommandType = "cp" then sessionExecuteLoop env s (env.doCopyCmdSession s) w
  else if s.CommandType = "sync" then sessionExecuteLoop env s (env.doSyncCmdSession s) w
  else .ret () w

/-- The method `Args.First` of the command line library. -/
def cli.First (args : List String) : String := args.headD ""

/-- The method `Args.Tail` of the command line library. -/
def cli.Tail (args : List String) : List String :=
  if 2 ≤ args.length then args.drop 1 else []

/-- The `resume` case of `runSessionCmd` (lines 205-247). -/
def runSessionResume (env : Env) (args : List String) (w : World) : Outcome Unit :=
  if (cli.Tail args).length ≠ 1 then cli.ShowCommandHelpAndExit "session" 1 w
  else if strings.TrimSpace (cli.First (cli.Tail args)) = "" then
    cli.ShowCommandHelpAndExit "session" 1 w
  else
    let sid := strings.TrimSpace (cli.First (cli.Tail args))
    match resumeSession env sid w with
    | (.error err, w1) => console.Fatals ⟨"Failed with", some (iodine.New err [])⟩ w1
    | (.ok s, w1) =>
      match os.Getwd w1 with
      | .error err => console.Fatals ⟨"Failed with", some (iodine.New err [])⟩ w1
      | .ok savedCwd =>
        let w2 := if s.RootPath ≠ "" then (os.Chdir w1 s.RootPath).2 else w1
        match sessionExecute env s w2 with
        | .exit code w3 => .exit code w3
        | .ret _ w3 =>
          if !env.globalQuietFlag then
            let w4 := w3.emit .BarFinish
            match clearSession env sid w4 with
            | (some err, w5) => console.Fatals ⟨"Failed with", some (iodine.New err [])⟩ w5
            | (none, w5) => .ret () (os.Chdir w5 savedCwd).2
          else .ret () w3

/-- The function `runSessionCmd`, on the arguments of the command. -/
def runSessionCmd (env : Env) (args : List String) (w : World) : Outcome Unit :=
  if args.length < 1 ∨ cli.First args = "help" then cli.ShowCommandHelpAndExit "session" 1 w
  else if strings.TrimSpace (cli.First args) = "" then cli.ShowCommandHelpAndExit "session" 1 w
  else
    let created := if env.isSessionDirExists w then (none, w) else env.createSessionDir w
    match created with
    | (some err, w0) => console.Fatals ⟨"Failed with", some (iodine.New err [])⟩ w0
    | (none, w0) =>
      let command := strings.TrimSpace (cli.First args)
      if command = "list" then
        match listSessions env env.sessionDir w0 with
        | (some err, w1) => console.Fatals ⟨"Failed with", some (iodine.New err [])⟩ w1
        | (none, w1) => .ret () w1
      else if command = "resume" then runSessionResume env args w0
      else if command = "clear" then
        if (cli.Tail args).length ≠ 1 then cli.ShowCommandHelpAndExit "session" 1 w0
        else if strings.TrimSpace (cli.First (cli.Tail args)) = "" then
          cli.ShowCommandHelpAndExit "session" 1 w0
        else
          match clearSession env (strings.TrimSpace (cli.First (cli.Tail args))) w0 with
          | (some err, w1) => console.Fatals ⟨"Failed with", some (iodine.New err [])⟩ w1
          | (none, w1) => .ret () w1
      else cli.ShowCommandHelpAndExit "session" 1 w0

/-! ## Vocabulary of the statements -/

/-- The errors `doList` recovers from: after `iodine.ToError`, a
`client.ISBrokenSymlink`, or an error `os.IsNotExist` or `os.IsPermission`
accepts. -/
def recovered (e : GoError) : Bool :=
  isISBrokenSymlink (iodine.ToError e) || os.IsNotExist (iodine.ToError e) ||
    os.IsPermission (iodine.ToError e)

/-- A stream element `doList` passes over: an error entry with a recovered
error, or a Content entry (no error, and a Content to print). -/
def passedOver (ch : client.ContentOnChannel) : Bool :=
  match ch.Err with
  | some e => recovered e
  | none => ch.Content.isSome

/-- What `doList` writes to the console for a stream element it passes over:
the inline report of an error entry, the parsed record of a Content entry. -/
def reportOf (rt : Runtime) (ch : client.ContentOnChannel) : List Effect :=
  match ch.Err with
  | some e =>
    [.Errors ⟨"Failed with",
      some (if isISBrokenSymlink (iodine.ToError e) then iodine.New (iodine.ToError e) []
        else iodine.New e [])⟩]
  | none =>
    match ch.Content with
    | some c => [.Prints (.content (parseContent rt c).1)]
    | none => []

/-- The records printed with `console.Prints`, in order. -/
def printedContents (out : List Effect) : List Content :=
  out.filterMap fun
    | .Prints (.content c) => some c
    | _ => none

/-- The parsed records of the Content entries of a stream, in stream order. -/
def contentEntries (rt : Runtime) (l : List client.ContentOnChannel) : List Content :=
  l.filterMap fun ch =>
    match ch.Err, ch.Content with
    | none, some c => some (parseContent rt c).1
    | _, _ => none

/-- The error messages reported with `console.Errors`, in order. -/
def reportedErrors (out : List Effect) : List ErrorMessage :=
  out.filterMap fun
    | .Errors m => some m
    | _ => none

/-- The error entries of a stream, in stream order. -/
def errorEntries (l : List client.ContentOnChannel) : List GoError :=
  l.filterMap fun ch => ch.Err

/-- A run time for the examples: not Windows, with stand-in formatters. -/
def exampleRuntime : Runtime :=
  { GOOS := "linux", Format := fun t _ => toString t, IBytes := fun n => toString n ++ "B" }

/-- A client for the examples whose enumeration stream is `stream`. -/
def exampleClient (stream : List client.ContentOnChannel) : client.Client Reader :=
  { List := fun _ => stream
    GetObject := fun _ _ => .error (.errorString "not an object")
    URL := "https://play.minio.io:9000/bucket" }

/-- The file entry `name` of the example streams. -/
def exampleEntry (name : String) : client.ContentOnChannel :=
  { Content := some { Name := name, Time := 0, Size := 3, Type_ := 0o644 }, Err := none }

/-- The events `sessionExecute` receives for a record: the channel of the copy
executor for `cp`, of the sync executor for `sync`, none otherwise. -/
def executorEvents (env : Env) (s : sessionV1) : List SessionEvent :=
  if s.CommandType = "cp" then env.doCopyCmdSession s
  else if s.CommandType = "sync" then env.doSyncCmdSession s
  else []

/-- What `sessionExecute` does on receiving an event: the receive, and the
report of the error the event carries. -/
def eventEffects (ev : SessionEvent) : List Effect :=
  match ev.Error with
  | some err => [.Recv ev, .Errors ⟨"Failed with", some (iodine.New err [])⟩]
  | none => [.Recv ev]

/-- The records `saveSession` was called with, in order. -/
def savedRecords (out : List Effect) : List sessionV1 :=
  out.filterMap fun
    | .SaveSession s => some s
    | _ => none

/-- The events received from the executor, in order. -/
def receivedEvents (out : List Effect) : List SessionEvent :=
  out.filterMap fun
    | .Recv ev => some ev
    | _ => none

/-- The exit code of a run that ended the process. -/
def Outcome.exitCode {α : Type} : Outcome α → Option Int
  | .ret _ _ => none
  | .exit code _ => some code

/-- The state a run ends in. -/
def Outcome.world {α : Type} : Outcome α → World
  | .ret _ w => w
  | .exit _ w => w

/-- The 100-byte object of the `cat` example. -/
def exampleObject : Reader := { data := List.replicate 100 65, err := none }

/-- A destination that takes 40 bytes and then reports a broken pipe. -/
def examplePipe : Stdout :=
  { written := [], room := some 40, fail := .PathError "write" "/dev/stdout" (.errno syscall.EPIPE) }

/-- The source client of the `cat` example. -/
def exampleSource (_url : String) : Except GoError (client.Client Reader) :=
  .ok { List := fun _ => [], GetObject := fun _ _ => .ok (exampleObject, 100), URL := "object" }

/-- The session directory of the examples. -/
def exampleSessionDir : String := "/home/u/.mc/session"

/-- A store for the examples: a session file holds the command type of its
record, `loadSession` reads it back, `saveSession` replaces the file named by
the identifier of the record. -/
def exampleEnv (quiet : Bool) (events : List SessionEvent) : Env :=
  { globalQuietFlag := quiet
    getSessionDir := .ok exampleSessionDir
    getSessionFile := fun sid => .ok (filepath.Join exampleSessionDir sid)
    sessionDir := exampleSessionDir
    isSessionDirExists := fun _ => true
    createSessionDir := fun w => (none, w)
    loadSession := fun fs sid =>
      match os.Stat fs (filepath.Join exampleSessionDir sid) with
      | .ok info =>
        if info.data = "" then .error (.errorString "unexpected end of JSON input")
        else .ok ⟨"1.0.0", sid, info.data, "/data", []⟩
      | .error err => .error err
    saveSession := fun fs s =>
      (none, { fs with entries :=
        fs.entries.filter (fun e => e.Name ≠ s.SessionID) ++
          [⟨s.SessionID, 0o600, true, s.CommandType⟩] })
    doCopyCmdSession := fun _ => events
    doSyncCmdSession := fun _ => events }

/-- The record of the examples. -/
def exampleSession : sessionV1 :=
  { Version := "1.0.0", SessionID := "abcdefgh", CommandType := "cp", RootPath := "/data",
    URLs := ["item1", "item2"] }

/-- The state the examples start in: the session directory holds the file of
`exampleSession`, and the caller stands in `/home/u`. -/
def exampleWorld : World :=
  { fs := { dir := exampleSessionDir, entries := [⟨"abcdefgh", 0o600, true, "cp"⟩] }
    cwd := "/home/u"
    dirs := ["/home/u", "/data"]
    out := [] }

/-- The effects of `sessionExecute` after the save: the fatal report of a
failed save, or the empty line and the hint message. -/
def afterSave (saveErr : Option GoError) (s : sessionV1) : List Effect :=
  match saveErr with
  | some err => [.Fatals ⟨"Failed with", some (iodine.New err [])⟩]
  | none => [.Println, .Infos (sessionTerminatedMessage s)]

/-- Whether `loadSession` succeeds on a directory entry. -/
def loads (env : Env) (fs : FS) (e : FileInfo) : Bool :=
  match env.loadSession fs e.Name with
  | .ok _ => true
  | .error _ => false

/-- The records of the regular files of a listing, each printed with
`console.Prints`, in listing order; entries that are not regular files
contribute nothing. -/
def printedSessions (env : Env) (fs : FS) (l : List FileInfo) : List Effect :=
  (l.filter fun e => os.IsRegular e.Mode).filterMap fun e =>
    match env.loadSession fs e.Name with
    | .ok s => some (.Prints (.session s))
    | .error _ => none

/-- A session directory for the examples: two session files, a subdirectory
and a symbolic link. -/
def exampleListing : List FileInfo :=
  [⟨"abcdefgh", 0o600, true, "cp"⟩, ⟨"old", os.ModeDir + 0o700, true, ""⟩,
    ⟨"latest", os.ModeSymlink + 0o777, true, "cp"⟩, ⟨"qrstuvwx", 0o600, true, "sync"⟩]

/-- The state in which `runSessionCmd` starts the executor of a resumed
record: the working directory is the root path of the record when it has one
and `os.Chdir` can enter it. -/
def resumedWorld (s : sessionV1) (w : World) : World :=
  if s.RootPath ≠ "" then (os.Chdir w s.RootPath).2 else w

/-! ## The identifier generator and `newSession` -/

/-- Modelled from the spec: the alphabet of the identifier generator, "the
52-letter alphabet (upper+lower case)". -/
def sessionLetters : List Char :=
  "abcdefghijklmnopqrstuvwxyzABCDEFGHIJKLMNOPQRSTUVWXYZ".data

/-- Modelled from the spec: the identifier generator `newSID` of `session.go`,
whose source is not available: "produces exactly 8 characters" (`n` in
general, the sources call `newSID(8)`), "each drawn ... from the 52-letter
alphabet". `draw i` is the random value drawn for position `i`. -/
def newSID (n : Nat) (draw : Nat → Nat) : String :=
  ⟨(List.range n).map fun i => sessionLetters.getD (draw i % 52) 'a'⟩

/-- Modelled from the spec: `newSession` of `session.go`, whose source is not
available: "allocates an ID (retrying on collision against the store
directory), returns a fresh record with empty pending work"; the root path is
the "working-directory snapshot captured at session creation". Each attempt
uses the next 8 draws, and `fuel` bounds the number of attempts. -/
def newSession (version : String) (w : World) (draw : Nat → Nat) : Nat → Except GoError sessionV1
  | 0 => .error (.errorString "no free session identifier")
  | fuel + 1 =>
    if w.fs.entries.any (fun e => e.Name = newSID 8 draw) then
      newSession version w (fun i => draw (i + 8)) fuel
    else
      .ok { Version := version, SessionID := newSID 8 draw, CommandType := "",
            RootPath := w.cwd, URLs := [] }

/-- An ASCII letter, the character class `[A-Za-z]`. -/
def isAsciiLetter (c : Char) : Bool :=
  ('a' ≤ c ∧ c ≤ 'z') ∨ ('A' ≤ c ∧ c ≤ 'Z')

/-- The pattern `^[A-Za-z]{8}$` of the specification. -/
def validSessionID (sid : String) : Bool :=
  sid.data.length = 8 ∧ sid.data.all isAsciiLetter

/-- The draws of attempt `k` of `newSession`. -/
def drawsOfAttempt (draw : Nat → Nat) (k : Nat) : Nat → Nat :=
  fun i => draw (i + 8 * k)

/-! # Properties -/

/-! ## `parseContent` -/

theorem TrimSuffix_slash_append (base : String) :
    strings.TrimSuffix (base ++ "/") "/" = base := by
  unfold strings.TrimSuffix strings.HasSuffix
  have h : ("/" : String).data <:+ (base ++ "/").data := by
    simp [String.data_append]
  simp [h, String.data_append]

theorem TrimSuffix_slash_of_not_suffix (name : String)
    (h : ¬ ∃ base : String, name = base ++ "/") : strings.TrimSuffix name "/" = name := by
  unfold strings.TrimSuffix strings.HasSuffix
  have h1 : ¬ ("/" : String).data <:+ name.data := by
    rintro ⟨t, ht⟩
    exact h ⟨⟨t⟩, by apply String.ext; simp [String.data_append, ht]⟩
  simp [h1]

/-- C9: on a platform other than Windows, `parseContent` gives the record the
file type "directory" for a directory entry and "file" otherwise, and the name
of the entry with one trailing "/" stripped when there is one, followed by one
"/" exactly when the entry is a directory; so the name of a directory ends in
"/" and the name of a file is the entry name without its trailing "/". -/
theorem parseContent_filetype_and_name (rt : Runtime) (c : client.Content)
    (hos : rt.GOOS ≠ "windows") :
    (parseContent rt c).1.Filetype = (if os.IsDir c.Type_ then "directory" else "file") ∧
    (parseContent rt c).1.Name =
      strings.TrimSuffix c.Name "/" ++ (if os.IsDir c.Type_ then "/" else "") ∧
    (∀ base : String, c.Name = base ++ "/" →
      (parseContent rt c).1.Name = base ++ (if os.IsDir c.Type_ then "/" else "")) ∧
    ((¬ ∃ base : String, c.Name = base ++ "/") →
      (parseContent rt c).1.Name = c.Name ++ (if os.IsDir c.Type_ then "/" else "")) ∧
    (os.IsDir c.Type_ = true → strings.HasSuffix (parseContent rt c).1.Name "/" = true) ∧
    (os.IsDir c.Type_ = false → (parseContent rt c).1.Name = strings.TrimSuffix c.Name "/") := by
  have hname : (parseContent rt c).1.Name =
      strings.TrimSuffix c.Name "/" ++ (if os.IsDir c.Type_ then "/" else "") := by
    simp only [parseContent, parseContentName, if_neg hos]
    split <;> simp
  refine ⟨by simp [parseContent], hname, ?_, ?_, ?_, ?_⟩
  · intro base hbase
    rw [hname, hbase, TrimSuffix_slash_append]
  · intro hno
    rw [hname, TrimSuffix_slash_of_not_suffix c.Name hno]
  · intro hdir
    rw [hname, if_pos hdir]
    simp [strings.HasSuffix, String.data_append]
  · intro hfile
    rw [hname]
    simp [hfile]

theorem parseContent_filetype_and_name_witness :
    exampleRuntime.GOOS ≠ "windows" ∧
    (parseContent exampleRuntime ⟨"photos/", 0, 0, os.ModeDir + 0o755⟩).1.Name = "photos/" ∧
    (parseContent exampleRuntime ⟨"photos/", 0, 0, os.ModeDir + 0o755⟩).1.Filetype = "directory" :=
  ⟨by decide,
    by
      have h := (parseContent_filetype_and_name exampleRuntime
        ⟨"photos/", 0, 0, os.ModeDir + 0o755⟩ (by decide)).2.2.1 "photos" (by decide)
      rw [h]; decide,
    by
      rw [(parseContent_filetype_and_name exampleRuntime
        ⟨"photos/", 0, 0, os.ModeDir + 0o755⟩ (by decide)).1]; decide⟩

/-! ## `doList` -/

theorem doListLoop_passedOver (rt : Runtime) (pre rest : List client.ContentOnChannel) :
    ∀ out : List Effect, (∀ ch ∈ pre, passedOver ch = true) →
      doListLoop rt (pre ++ rest) out = doListLoop rt rest (out ++ pre.flatMap (reportOf rt)) := by
  induction pre with
  | nil => intro out _; simp
  | cons ch pre ih =>
    intro out h
    have hch : passedOver ch = true := h ch (List.mem_cons_self _ _)
    have hpre : ∀ x ∈ pre, passedOver x = true := fun x hx => h x (List.mem_cons_of_mem _ hx)
    rcases ch with ⟨content, err⟩
    cases err with
    | some e =>
      have hrec : recovered e = true := by simpa [passedOver] using hch
      by_cases hb : isISBrokenSymlink (iodine.ToError e) = true
      · simp [doListLoop, reportOf, hb, ih _ hpre]
      · have hperm : (os.IsNotExist (iodine.ToError e) || os.IsPermission (iodine.ToError e))
            = true := by
          simp only [recovered, Bool.or_assoc] at hrec
          simpa [hb] using hrec
        simp [doListLoop, reportOf, hb, hperm, ih _ hpre]
    | none =>
      cases content with
      | none => simp [passedOver] at hch
      | some c => simp [doListLoop, reportOf, ih _ hpre]

theorem printedContents_flatMap_reportOf (rt : Runtime) (l : List client.ContentOnChannel) :
    printedContents (l.flatMap (reportOf rt)) = contentEntries rt l := by
  induction l with
  | nil => rfl
  | cons ch l ih =>
    rcases ch with ⟨content, err⟩
    simp only [printedContents, contentEntries] at ih ⊢
    cases err <;> cases content <;>
      simp [reportOf, List.filterMap_cons, List.filterMap_append, ih]

theorem reportedErrors_flatMap_reportOf (rt : Runtime) (l : List client.ContentOnChannel) :
    (reportedErrors (l.flatMap (reportOf rt))).length = (errorEntries l).length := by
  induction l with
  | nil => rfl
  | cons ch l ih =>
    rcases ch with ⟨content, err⟩
    simp only [reportedErrors, errorEntries] at ih ⊢
    cases err <;> cases content <;>
      simp [reportOf, List.filterMap_cons, List.filterMap_append, ih]

/-- C1: when the first error of the enumeration stream that `doList` does not
recover from (after `iodine.ToError`: no `client.ISBrokenSymlink`, and neither
`os.IsNotExist` nor `os.IsPermission`) sits at position `pre.length`, the
elements of `pre` being Content entries and error entries with a recovered
error, then `doList` returns a non-nil error that wraps this stream error and
carries the data "Target" = `clnt.URL().String()`, has printed exactly the
parsed Content entries of `pre` in stream order, and leaves every element after
that position unread. -/
theorem doList_stops_at_first_fatal_error (rt : Runtime) (clnt : client.Client Reader)
    (recursive : Bool) (pre post : List client.ContentOnChannel)
    (content : Option client.Content) (e : GoError)
    (hstream : clnt.List recursive = pre ++ ⟨content, some e⟩ :: post)
    (hpre : ∀ ch ∈ pre, passedOver ch = true)
    (hfatal : recovered e = false) :
    (doList rt clnt recursive).ret = some (iodine.New e [("Target", clnt.URL)]) ∧
    (∃ stack, iodine.New e [("Target", clnt.URL)]
        = .iodine (iodine.ToError e) (stack ++ [[("Target", clnt.URL)]])) ∧
    (doList rt clnt recursive).panicked = false ∧
    (doList rt clnt recursive).out = pre.flatMap (reportOf rt) ∧
    printedContents (doList rt clnt recursive).out = contentEntries rt pre ∧
    (doList rt clnt recursive).unread = post := by
  have hb : isISBrokenSymlink (iodine.ToError e) = false := by
    simp only [recovered, Bool.or_eq_false_iff] at hfatal
    exact hfatal.1.1
  have hperm : (os.IsNotExist (iodine.ToError e) || os.IsPermission (iodine.ToError e))
      = false := by
    simp only [recovered, Bool.or_assoc, Bool.or_eq_false_iff] at hfatal
    simp [hfatal.2.1, hfatal.2.2]
  have hrun : doListLoop rt (clnt.List recursive) [] =
      { out := pre.flatMap (reportOf rt), unread := post, err := some e, panicked := false } := by
    rw [hstream, doListLoop_passedOver rt pre _ [] hpre]
    simp [doListLoop, hb, hperm]
  have hwrap : ∃ stack, iodine.New e [("Target", clnt.URL)]
      = .iodine (iodine.ToError e) (stack ++ [[("Target", clnt.URL)]]) := by
    cases e with
    | iodine inner stack => exact ⟨stack, rfl⟩
    | _ => exact ⟨[], rfl⟩
  refine ⟨?_, hwrap, ?_, ?_, ?_, ?_⟩
  · simp [doList, hrun]
  · simp [doList, hrun]
  · simp [doList, hrun]
  · simp [doList, hrun, printedContents_flatMap_reportOf]
  · simp [doList, hrun]

theorem doList_stops_at_first_fatal_error_witness :
    (doList exampleRuntime
        (exampleClient [exampleEntry "a", ⟨none, some (.errorString "b")⟩, exampleEntry "c"])
        false).ret
      = some (.iodine (.errorString "b") [[("Target", "https://play.minio.io:9000/bucket")]]) ∧
    printedContents (doList exampleRuntime
        (exampleClient [exampleEntry "a", ⟨none, some (.errorString "b")⟩, exampleEntry "c"])
        false).out
      = [⟨"file", "0", "3B", "a"⟩] ∧
    (doList exampleRuntime
        (exampleClient [exampleEntry "a", ⟨none, some (.errorString "b")⟩, exampleEntry "c"])
        false).unread
      = [exampleEntry "c"] := by
  have h := doList_stops_at_first_fatal_error exampleRuntime
    (exampleClient [exampleEntry "a", ⟨none, some (.errorString "b")⟩, exampleEntry "c"])
    false [exampleEntry "a"] [exampleEntry "c"] none (.errorString "b") rfl (by decide) (by decide)
  exact ⟨h.1, h.2.2.2.2.1.trans (by decide), h.2.2.2.2.2⟩

/-- C2: when every element of the enumeration stream is a Content entry or an
error entry whose error `doList` recovers from (a `client.ISBrokenSymlink`,
`os.IsNotExist` or `os.IsPermission` error), `doList` reads the whole stream,
prints the parsed record of every Content entry in stream order, reports every
error entry inline, and returns nil. -/
theorem doList_recovers_and_returns_nil (rt : Runtime) (clnt : client.Client Reader)
    (recursive : Bool) (hall : ∀ ch ∈ clnt.List recursive, passedOver ch = true) :
    (doList rt clnt recursive).ret = none ∧
    (doList rt clnt recursive).unread = [] ∧
    (doList rt clnt recursive).panicked = false ∧
    (doList rt clnt recursive).out = (clnt.List recursive).flatMap (reportOf rt) ∧
    printedContents (doList rt clnt recursive).out = contentEntries rt (clnt.List recursive) ∧
    (reportedErrors (doList rt clnt recursive).out).length
      = (errorEntries (clnt.List recursive)).length := by
  have hrun : doListLoop rt (clnt.List recursive) [] =
      { out := (clnt.List recursive).flatMap (reportOf rt), unread := [], err := none,
        panicked := false } := by
    have h := doListLoop_passedOver rt (clnt.List recursive) [] [] hall
    simpa [doListLoop] using h
  refine ⟨?_, ?_, ?_, ?_, ?_, ?_⟩
  · simp [doList, hrun]
  · simp [doList, hrun]
  · simp [doList, hrun]
  · simp [doList, hrun]
  · simp [doList, hrun, printedContents_flatMap_reportOf]
  · simp [doList, hrun, reportedErrors_flatMap_reportOf]

theorem doList_recovers_and_returns_nil_witness :
    (doList exampleRuntime
        (exampleClient [exampleEntry "a",
          ⟨none, some (.PathError "open" "b" (.errno syscall.EACCES))⟩, exampleEntry "c"])
        false).ret = none ∧
    printedContents (doList exampleRuntime
        (exampleClient [exampleEntry "a",
          ⟨none, some (.PathError "open" "b" (.errno syscall.EACCES))⟩, exampleEntry "c"])
        false).out
      = [⟨"file", "0", "3B", "a"⟩, ⟨"file", "0", "3B", "c"⟩] ∧
    reportedErrors (doList exampleRuntime
        (exampleClient [exampleEntry "a",
          ⟨none, some (.PathError "open" "b" (.errno syscall.EACCES))⟩, exampleEntry "c"])
        false).out
      = [⟨"Failed with",
          some (.iodine (.PathError "open" "b" (.errno syscall.EACCES)) [[]])⟩] := by
  have h := doList_recovers_and_returns_nil exampleRuntime
    (exampleClient [exampleEntry "a",
      ⟨none, some (.PathError "open" "b" (.errno syscall.EACCES))⟩, exampleEntry "c"])
    false (by decide)
  exact ⟨h.1, h.2.2.2.2.1.trans (by decide), by rw [h.2.2.2.1]; decide⟩

/-! ## `doCatCmd` -/

/-- C3: once `source2Client` and `GetObject(0, 0)` have succeeded, a failure
`err` of the copy to standard output makes `doCatCmd` return success (empty
message, nil error) if and only if it is a broken pipe, an `*os.PathError`
whose `Err` is `EPIPE` (as `iodine.ToError` presents it); every other copy
failure is returned as a non-nil error. -/
theorem doCatCmd_success_iff_broken_pipe
    (source2Client : String → Except GoError (client.Client Reader)) (stdout : Stdout)
    (sourceURL : String) (clnt : client.Client Reader) (reader : Reader) (size n : Int)
    (err : GoError) (stdout1 : Stdout)
    (hclient : source2Client sourceURL = .ok clnt)
    (hget : clnt.GetObject 0 0 = .ok (reader, size))
    (hcopy : ioCopyN stdout reader size = (n, some err, stdout1)) :
    (((doCatCmd source2Client stdout sourceURL).msg = "" ∧
        (doCatCmd source2Client stdout sourceURL).err = none) ↔
      ∃ op path, iodine.ToError err = .PathError op path (.errno syscall.EPIPE)) ∧
    ((¬ ∃ op path, iodine.ToError err = .PathError op path (.errno syscall.EPIPE)) →
      (doCatCmd source2Client stdout sourceURL).err = some (iodine.New err [])) ∧
    (doCatCmd source2Client stdout sourceURL).stdout = stdout1 := by
  cases hto : iodine.ToError err with
  | PathError op path inner =>
    by_cases hpipe : inner = .errno syscall.EPIPE
    · subst hpipe
      simp [doCatCmd, hclient, hget, hcopy, hto]
    · simp [doCatCmd, hclient, hget, hcopy, hto, hpipe]
  | _ => simp [doCatCmd, hclient, hget, hcopy, hto]

theorem doCatCmd_success_iff_broken_pipe_witness :
    (doCatCmd exampleSource examplePipe "object").msg = "" ∧
    (doCatCmd exampleSource examplePipe "object").err = none ∧
    (doCatCmd exampleSource examplePipe "object").stdout.written.length = 40 := by
  have hcopy : ioCopyN examplePipe exampleObject 100 =
      (40, some (.PathError "write" "/dev/stdout" (.errno syscall.EPIPE)),
        { examplePipe with written := List.replicate 40 65, room := some 0 }) := by
    decide
  have h := doCatCmd_success_iff_broken_pipe exampleSource examplePipe "object" _ _ _ _ _ _
    rfl rfl hcopy
  have hok := h.1.2 ⟨"write", "/dev/stdout", rfl⟩
  exact ⟨hok.1, hok.2, by rw [h.2.2]; decide⟩

/-! ## `sessionExecute` -/

theorem sessionExecute_eq_loop (env : Env) (s : sessionV1) (w : World) :
    sessionExecute env s w = sessionExecuteLoop env s (executorEvents env s) w := by
  unfold sessionExecute executorEvents
  split
  · rfl
  · split
    · rfl
    · rfl

theorem World.emit_eventEffects (w : World) (ev : SessionEvent) :
    (match ev.Error with
      | some err => (w.emit (.Recv ev)).emit (.Errors ⟨"Failed with", some (iodine.New err [])⟩)
      | none => w.emit (.Recv ev)) = { w with out := w.out ++ eventEffects ev } := by
  cases h : ev.Error <;> simp [World.emit, eventEffects, h]

theorem sessionExecuteLoop_not_done (env : Env) (s : sessionV1)
    (pre rest : List SessionEvent) :
    ∀ w : World, (∀ ev ∈ pre, ev.Done = false) →
      sessionExecuteLoop env s (pre ++ rest) w =
        sessionExecuteLoop env s rest { w with out := w.out ++ pre.flatMap eventEffects } := by
  induction pre with
  | nil => intro w _; simp
  | cons ev pre ih =>
    intro w h
    have hev : ev.Done = false := h ev (List.mem_cons_self _ _)
    have hpre : ∀ x ∈ pre, x.Done = false := fun x hx => h x (List.mem_cons_of_mem _ hx)
    have hstep : sessionExecuteLoop env s (ev :: (pre ++ rest)) w =
        sessionExecuteLoop env s (pre ++ rest) { w with out := w.out ++ eventEffects ev } := by
      simp [sessionExecuteLoop, hev, World.emit_eventEffects]
    rw [List.cons_append, hstep, ih _ hpre]
    simp [List.flatMap_cons, List.append_assoc]

theorem savedRecords_append (a b : List Effect) :
    savedRecords (a ++ b) = savedRecords a ++ savedRecords b := by
  simp [savedRecords, List.filterMap_append]

theorem receivedEvents_append (a b : List Effect) :
    receivedEvents (a ++ b) = receivedEvents a ++ receivedEvents b := by
  simp [receivedEvents, List.filterMap_append]

theorem savedRecords_flatMap_eventEffects (l : List SessionEvent) :
    savedRecords (l.flatMap eventEffects) = [] := by
  induction l with
  | nil => rfl
  | cons ev l ih =>
    simp only [savedRecords] at ih ⊢
    cases h : ev.Error <;> simp [eventEffects, h, List.filterMap_append, ih]

theorem receivedEvents_flatMap_eventEffects (l : List SessionEvent) :
    receivedEvents (l.flatMap eventEffects) = l := by
  induction l with
  | nil => rfl
  | cons ev l ih =>
    simp only [receivedEvents] at ih ⊢
    cases h : ev.Error <;> simp [eventEffects, h, List.filterMap_append, ih]

theorem sessionExecuteLoop_done (env : Env) (s : sessionV1) (pre post : List SessionEvent)
    (last : SessionEvent) (w : World)
    (hpre : ∀ ev ∈ pre, ev.Done = false) (hlast : last.Done = true) :
    sessionExecuteLoop env s (pre ++ last :: post) w =
      .exit (if (env.saveSession w.fs s).1 = none then 0 else 1)
        { w with
          fs := (env.saveSession w.fs s).2
          out := w.out ++ (pre ++ [last]).flatMap eventEffects ++ [.SaveSession s] ++
            afterSave (env.saveSession w.fs s).1 s } := by
  rw [sessionExecuteLoop_not_done env s pre _ w hpre]
  simp only [sessionExecuteLoop, hlast, World.emit_eventEffects, if_true]
  cases hs : (env.saveSession w.fs s).1 <;>
    simp [console.Fatals, World.emit, afterSave, List.flatMap_append, hs]

/-- C4: for a record whose command type is `cp` or `sync` and executor events
`pre ++ [last]` (followed by whatever the executor would send next, `post`)
where the events of `pre` have `Done = false` and `last` has `Done = true`,
`sessionExecute` calls `saveSession` exactly once, after it has received
`last` and not before, and then ends the process, with exit code 0 when the
save reported no error; it receives no event of `post`. -/
theorem sessionExecute_saves_once_after_done (env : Env) (s : sessionV1) (w : World)
    (pre post : List SessionEvent) (last : SessionEvent)
    (hcmd : s.CommandType = "cp" ∨ s.CommandType = "sync")
    (hevents : (if s.CommandType = "cp" then env.doCopyCmdSession s
      else env.doSyncCmdSession s) = pre ++ last :: post)
    (hpre : ∀ ev ∈ pre, ev.Done = false) (hlast : last.Done = true) :
    (sessionExecute env s w).exitCode =
      some (if (env.saveSession w.fs s).1 = none then 0 else 1) ∧
    ((env.saveSession w.fs s).1 = none → (sessionExecute env s w).exitCode = some 0) ∧
    savedRecords (sessionExecute env s w).world.out = savedRecords w.out ++ [s] ∧
    (sessionExecute env s w).world.out =
      w.out ++ (pre ++ [last]).flatMap eventEffects ++ [.SaveSession s] ++
        afterSave (env.saveSession w.fs s).1 s ∧
    receivedEvents (sessionExecute env s w).world.out = receivedEvents w.out ++ (pre ++ [last]) ∧
    (sessionExecute env s w).world.fs = (env.saveSession w.fs s).2 := by
  have hev : executorEvents env s = pre ++ last :: post := by
    rw [← hevents]
    unfold executorEvents
    rcases hcmd with h | h
    · simp [h]
    · simp [h]
  have hrun := sessionExecuteLoop_done env s pre post last w hpre hlast
  rw [← hev, ← sessionExecute_eq_loop] at hrun
  have hafter : savedRecords (afterSave (env.saveSession w.fs s).1 s) = [] ∧
      receivedEvents (afterSave (env.saveSession w.fs s).1 s) = [] := by
    cases (env.saveSession w.fs s).1 <;> simp [afterSave, savedRecords, receivedEvents]
  rw [hrun]
  refine ⟨rfl, ?_, ?_, rfl, ?_, rfl⟩
  · intro hsave
    simp [Outcome.exitCode, hsave]
  · simp only [Outcome.world, savedRecords_append, savedRecords_flatMap_eventEffects, hafter.1]
    simp [savedRecords]
  · simp only [Outcome.world, receivedEvents_append, receivedEvents_flatMap_eventEffects,
      hafter.2]
    simp [receivedEvents]

theorem sessionExecute_saves_once_after_done_witness :
    (sessionExecute (exampleEnv false [⟨none, false⟩, ⟨none, true⟩]) exampleSession
      exampleWorld).exitCode = some 0 ∧
    savedRecords (sessionExecute (exampleEnv false [⟨none, false⟩, ⟨none, true⟩]) exampleSession
      exampleWorld).world.out = [exampleSession] ∧
    (sessionExecute (exampleEnv false [⟨none, false⟩, ⟨none, true⟩]) exampleSession
      exampleWorld).world.out =
      [.Recv ⟨none, false⟩, .Recv ⟨none, true⟩, .SaveSession exampleSession, .Println,
        .Infos (sessionTerminatedMessage exampleSession)] := by
  have h := sessionExecute_saves_once_after_done
    (exampleEnv false [⟨none, false⟩, ⟨none, true⟩]) exampleSession exampleWorld
    [⟨none, false⟩] [] ⟨none, true⟩ (Or.inl rfl) rfl (by decide) rfl
  exact ⟨h.2.1 rfl, h.2.2.1, h.2.2.2.1⟩

/-! ## `resumeSession` -/

theorem filepath.Join_injective (dir a b : String)
    (h : filepath.Join dir a = filepath.Join dir b) : a = b := by
  have h1 := congrArg String.data h
  simp only [filepath.Join, String.data_append, List.append_assoc] at h1
  exact String.ext (List.append_cancel_left (List.append_cancel_left h1))

/-- C6: when no entry of the session directory is the file of the identifier
`sid` (the path `getSessionFile` gives for it), `resumeSession sid` returns no
record, fails with `errInvalidSessionID` carrying `sid`, and leaves the file
system and the rest of the state as they were. -/
theorem resumeSession_missing_file (env : Env) (sid sfile : String) (w : World)
    (hfile : env.getSessionFile sid = .ok sfile)
    (hmissing : ∀ e ∈ w.fs.entries, filepath.Join w.fs.dir e.Name ≠ sfile) :
    (resumeSession env sid w).1 = .error (iodine.New (.errInvalidSessionID sid) []) ∧
    iodine.ToError (iodine.New (.errInvalidSessionID sid) []) = .errInvalidSessionID sid ∧
    (resumeSession env sid w).2.fs = w.fs ∧
    (resumeSession env sid w).2 = w := by
  have hfind : w.fs.entries.find? (fun e => filepath.Join w.fs.dir e.Name = sfile) = none := by
    rw [List.find?_eq_none]
    intro e he
    simpa using hmissing e he
  have hstat : os.Stat w.fs sfile = .error (.PathError "stat" sfile (.errno syscall.ENOENT)) := by
    simp [os.Stat, hfind]
  simp [resumeSession, hfile, hstat, iodine.New, iodine.ToError]

theorem resumeSession_missing_file_witness :
    (resumeSession (exampleEnv false []) "zzzzzzzz" exampleWorld).1
      = .error (.iodine (.errInvalidSessionID "zzzzzzzz") [[]]) ∧
    (resumeSession (exampleEnv false []) "zzzzzzzz" exampleWorld).2 = exampleWorld := by
  have h := resumeSession_missing_file (exampleEnv false []) "zzzzzzzz"
    (filepath.Join exampleSessionDir "zzzzzzzz") exampleWorld rfl (by decide)
  exact ⟨h.1, h.2.2.2⟩

/-! ## `clearSession` -/

theorem os.Remove_middle (dir : String) (kept rest : List FileInfo) (e : FileInfo)
    (hnodup : ((kept ++ e :: rest).map FileInfo.Name).Nodup) (hrem : e.removable = true) :
    os.Remove ⟨dir, kept ++ e :: rest⟩ (filepath.Join dir e.Name) = (none, ⟨dir, kept ++ rest⟩) := by
  have hnames : e.Name ∉ kept.map FileInfo.Name ∧ e.Name ∉ rest.map FileInfo.Name := by
    rw [List.map_append, List.map_cons, List.nodup_middle, List.nodup_cons] at hnodup
    have h := hnodup.1
    rw [List.mem_append, not_or] at h
    exact h
  have hkept : ∀ x ∈ kept, filepath.Join dir x.Name ≠ filepath.Join dir e.Name := by
    intro x hx heq
    exact hnames.1 (List.mem_map.2 ⟨x, hx, filepath.Join_injective dir _ _ heq⟩)
  have hrest : ∀ x ∈ rest, filepath.Join dir x.Name ≠ filepath.Join dir e.Name := by
    intro x hx heq
    exact hnames.2 (List.mem_map.2 ⟨x, hx, filepath.Join_injective dir _ _ heq⟩)
  have hfind : (kept ++ e :: rest).find?
      (fun x => filepath.Join dir x.Name = filepath.Join dir e.Name) = some e := by
    rw [List.find?_append]
    have hk : kept.find? (fun x => filepath.Join dir x.Name = filepath.Join dir e.Name) = none := by
      rw [List.find?_eq_none]
      intro x hx
      simpa using hkept x hx
    simp [hk]
  have hfilter : (kept ++ e :: rest).filter
      (fun x => filepath.Join dir x.Name ≠ filepath.Join dir e.Name) = kept ++ rest := by
    rw [List.filter_append, List.filter_cons]
    have h1 : kept.filter (fun x => filepath.Join dir x.Name ≠ filepath.Join dir e.Name) = kept := by
      rw [List.filter_eq_self]
      intro x hx
      simpa using hkept x hx
    have h2 : rest.filter (fun x => filepath.Join dir x.Name ≠ filepath.Join dir e.Name) = rest := by
      rw [List.filter_eq_self]
      intro x hx
      simpa using hrest x hx
    rw [h1, h2]
    simp
  simp only [os.Remove, hfind, hrem, if_true, hfilter]

theorem clearSessionLoop_removes_regular (dir : String) (rest : List FileInfo) :
    ∀ kept : List FileInfo, ((kept ++ rest).map FileInfo.Name).Nodup →
      (∀ e ∈ rest, os.IsRegular e.Mode = true → e.removable = true) →
      clearSessionLoop dir rest ⟨dir, kept ++ rest⟩ =
        (none, ⟨dir, kept ++ rest.filter (fun e => !os.IsRegular e.Mode)⟩) := by
  induction rest with
  | nil => intro kept _ _; simp [clearSessionLoop]
  | cons e rest ih =>
    intro kept hnodup hrem
    have hrest : ∀ x ∈ rest, os.IsRegular x.Mode = true → x.removable = true :=
      fun x hx => hrem x (List.mem_cons_of_mem _ hx)
    by_cases hreg : os.IsRegular e.Mode = true
    · have he : e.removable = true := hrem e (List.mem_cons_self _ _) hreg
      have hnodup1 : ((kept ++ rest).map FileInfo.Name).Nodup := by
        rw [List.map_append, List.map_cons, List.nodup_middle, List.nodup_cons] at hnodup
        rw [List.map_append]
        exact hnodup.2
      simp only [clearSessionLoop, hreg, if_true, os.Remove_middle dir kept rest e hnodup he]
      rw [ih kept hnodup1 hrest]
      simp [List.filter_cons, hreg]
    · have hnodup1 : (((kept ++ [e]) ++ rest).map FileInfo.Name).Nodup := by
        simpa [List.append_assoc] using hnodup
      have hstep : clearSessionLoop dir (e :: rest) ⟨dir, kept ++ e :: rest⟩ =
          clearSessionLoop dir rest ⟨dir, (kept ++ [e]) ++ rest⟩ := by
        simp [clearSessionLoop, hreg]
      rw [hstep, ih (kept ++ [e]) hnodup1 hrest]
      simp [List.filter_cons, hreg]

/-- C7: in a session directory whose regular files can all be removed,
`clearSession "all"` returns no error and deletes every regular file:
afterwards the directory holds exactly the entries that were not regular files,
in their order; a directory of regular files only is left empty, and an empty
directory is left as it was. -/
theorem clearSession_all_removes_regular_files (env : Env) (w : World)
    (hdir : env.getSessionDir = .ok w.fs.dir)
    (hnodup : (w.fs.entries.map FileInfo.Name).Nodup)
    (hrem : ∀ e ∈ w.fs.entries, os.IsRegular e.Mode = true → e.removable = true) :
    (clearSession env "all" w).1 = none ∧
    (clearSession env "all" w).2 =
      { w with fs := { w.fs with
          entries := w.fs.entries.filter (fun e => !os.IsRegular e.Mode) } } ∧
    ((∀ e ∈ w.fs.entries, os.IsRegular e.Mode = true) →
      (clearSession env "all" w).2.fs.entries = []) ∧
    (w.fs.entries = [] → (clearSession env "all" w).2 = w) := by
  have hloop := clearSessionLoop_removes_regular w.fs.dir w.fs.entries [] (by simpa using hnodup) hrem
  simp only [List.nil_append] at hloop
  have hrun : clearSession env "all" w =
      (none, { w with fs := { w.fs with
          entries := w.fs.entries.filter (fun e => !os.IsRegular e.Mode) } }) := by
    simp [clearSession, hdir, ioutil.ReadDir, hloop]
  rw [hrun]
  refine ⟨rfl, rfl, ?_, ?_⟩
  · intro hall
    simp only [List.filter_eq_nil_iff]
    intro e he
    simp [hall e he]
  · intro hempty
    rcases w with ⟨⟨dir, entries⟩, cwd, dirs, out⟩
    simp only at hempty
    simp [hempty]

theorem clearSession_all_removes_regular_files_witness :
    (clearSession (exampleEnv false []) "all"
      { exampleWorld with fs := { dir := exampleSessionDir, entries :=
        [⟨"abcdefgh", 0o600, true, "cp"⟩, ⟨"old", os.ModeDir + 0o700, true, ""⟩,
          ⟨"qrstuvwx", 0o600, true, "sync"⟩] } }).1 = none ∧
    (clearSession (exampleEnv false []) "all"
      { exampleWorld with fs := { dir := exampleSessionDir, entries :=
        [⟨"abcdefgh", 0o600, true, "cp"⟩, ⟨"old", os.ModeDir + 0o700, true, ""⟩,
          ⟨"qrstuvwx", 0o600, true, "sync"⟩] } }).2.fs.entries
      = [⟨"old", os.ModeDir + 0o700, true, ""⟩] := by
  have h := clearSession_all_removes_regular_files (exampleEnv false [])
    { exampleWorld with fs := { dir := exampleSessionDir, entries :=
      [⟨"abcdefgh", 0o600, true, "cp"⟩, ⟨"old", os.ModeDir + 0o700, true, ""⟩,
        ⟨"qrstuvwx", 0o600, true, "sync"⟩] } }
    rfl (by decide) (by decide)
  exact ⟨h.1, by rw [h.2.1]; decide⟩

/-! ## `listSessions` -/

theorem listSessionsLoop_loaded (env : Env) (pre rest : List FileInfo) :
    ∀ w : World, (∀ e ∈ pre, os.IsRegular e.Mode = true → loads env w.fs e = true) →
      listSessionsLoop env (pre ++ rest) w =
        listSessionsLoop env rest { w with out := w.out ++ printedSessions env w.fs pre } := by
  induction pre with
  | nil => intro w _; simp [printedSessions]
  | cons e pre ih =>
    intro w h
    have hpre : ∀ x ∈ pre, os.IsRegular x.Mode = true → loads env w.fs x = true :=
      fun x hx => h x (List.mem_cons_of_mem _ hx)
    by_cases hreg : os.IsRegular e.Mode = true
    · have hload := h e (List.mem_cons_self _ _) hreg
      cases hl : env.loadSession w.fs e.Name with
      | error err => simp [loads, hl] at hload
      | ok s =>
        have hstep : listSessionsLoop env (e :: (pre ++ rest)) w =
            listSessionsLoop env (pre ++ rest) (w.emit (.Prints (.session s))) := by
          simp [listSessionsLoop, hreg, hl]
        rw [List.cons_append, hstep, ih (w.emit (.Prints (.session s))) hpre]
        simp [World.emit, printedSessions, List.filter_cons, hreg, hl, List.append_assoc]
    · have hstep : listSessionsLoop env (e :: (pre ++ rest)) w =
          listSessionsLoop env (pre ++ rest) w := by
        simp [listSessionsLoop, hreg]
      rw [List.cons_append, hstep, ih w hpre]
      simp [printedSessions, List.filter_cons, hreg]

theorem printedSessions_length (env : Env) (fs : FS) (l : List FileInfo)
    (h : ∀ e ∈ l, os.IsRegular e.Mode = true → loads env fs e = true) :
    (printedSessions env fs l).length = (l.filter fun e => os.IsRegular e.Mode).length := by
  induction l with
  | nil => rfl
  | cons e l ih =>
    have hl : ∀ x ∈ l, os.IsRegular x.Mode = true → loads env fs x = true :=
      fun x hx => h x (List.mem_cons_of_mem _ hx)
    have ih1 := ih hl
    simp only [printedSessions] at ih1 ⊢
    by_cases hreg : os.IsRegular e.Mode = true
    · have hload := h e (List.mem_cons_self _ _) hreg
      cases hls : env.loadSession fs e.Name with
      | error err => simp [loads, hls] at hload
      | ok s => simp [List.filter_cons, hreg, hls, ih1]
    · simp [List.filter_cons, hreg, ih1]

/-- C8: `listSessions` loads and prints one record per regular file of the
session directory, in listing order, and ignores the entries that are not
regular files; when the record of a regular file fails to load, it returns
that failure at that point, having printed the records of the regular files
before it and nothing after. -/
theorem listSessions_prints_regular_files (env : Env) (sdir : String) (w : World)
    (hdir : env.getSessionDir = .ok w.fs.dir) :
    ((∀ e ∈ w.fs.entries, os.IsRegular e.Mode = true → loads env w.fs e = true) →
      (listSessions env sdir w).1 = none ∧
      (listSessions env sdir w).2 =
        { w with out := w.out ++ printedSessions env w.fs w.fs.entries } ∧
      (printedSessions env w.fs w.fs.entries).length =
        (w.fs.entries.filter fun e => os.IsRegular e.Mode).length) ∧
    (∀ (pre post : List FileInfo) (bad : FileInfo) (err : GoError),
      w.fs.entries = pre ++ bad :: post →
      (∀ e ∈ pre, os.IsRegular e.Mode = true → loads env w.fs e = true) →
      os.IsRegular bad.Mode = true →
      env.loadSession w.fs bad.Name = .error err →
      (listSessions env sdir w).1 = some (iodine.New err []) ∧
      (listSessions env sdir w).2 = { w with out := w.out ++ printedSessions env w.fs pre }) := by
  have hrun : listSessions env sdir w = listSessionsLoop env w.fs.entries w := by
    simp [listSessions, hdir, ioutil.ReadDir]
  constructor
  · intro hall
    have h := listSessionsLoop_loaded env w.fs.entries [] w hall
    rw [List.append_nil] at h
    rw [hrun, h]
    exact ⟨rfl, rfl, printedSessions_length env w.fs w.fs.entries hall⟩
  · intro pre post bad err hsplit hpre hreg hbad
    have h := listSessionsLoop_loaded env pre (bad :: post) w hpre
    rw [hrun, hsplit, h]
    simp [listSessionsLoop, hreg, hbad]

theorem listSessions_prints_regular_files_witness :
    (listSessions (exampleEnv false []) ""
      { exampleWorld with fs := ⟨exampleSessionDir, exampleListing⟩ }).1 = none ∧
    (listSessions (exampleEnv false []) ""
      { exampleWorld with fs := ⟨exampleSessionDir, exampleListing⟩ }).2.out =
      [.Prints (.session ⟨"1.0.0", "abcdefgh", "cp", "/data", []⟩),
        .Prints (.session ⟨"1.0.0", "qrstuvwx", "sync", "/data", []⟩)] := by
  have h := (listSessions_prints_regular_files (exampleEnv false []) ""
    { exampleWorld with fs := ⟨exampleSessionDir, exampleListing⟩ } rfl).1 (by decide)
  exact ⟨h.1, by rw [h.2.1]; decide⟩

/-! ## `runSessionCmd`, the `resume` case -/

theorem runSessionCmd_resume (env : Env) (w : World) (sid : String)
    (hexists : env.isSessionDirExists w = true) :
    runSessionCmd env ["resume", sid] w = runSessionResume env ["resume", sid] w := by
  have htrim : strings.TrimSpace "resume" = "resume" := by decide
  simp [runSessionCmd, cli.First, hexists, htrim]

theorem runSessionResume_execute (env : Env) (w : World) (sid sfile : String) (s : sessionV1)
    (info : FileInfo)
    (hsid : strings.TrimSpace sid = sid) (hne : sid ≠ "")
    (hfile : env.getSessionFile sid = .ok sfile)
    (hstat : os.Stat w.fs sfile = .ok info)
    (hload : env.loadSession w.fs sid = .ok s)
    (hcwd : w.cwd ∈ w.dirs) :
    runSessionResume env ["resume", sid] w =
      match sessionExecute env s (resumedWorld s w) with
      | .exit code w3 => .exit code w3
      | .ret _ w3 =>
        if !env.globalQuietFlag then
          match clearSession env sid (w3.emit .BarFinish) with
          | (some err, w5) => console.Fatals ⟨"Failed with", some (iodine.New err [])⟩ w5
          | (none, w5) => .ret () (os.Chdir w5 w.cwd).2
        else .ret () w3 := by
  have hres : resumeSession env sid w = (.ok s, w) := by
    simp [resumeSession, hfile, hstat, hload]
  have hget : os.Getwd w = .ok w.cwd := by simp [os.Getwd, hcwd]
  simp [runSessionResume, cli.Tail, cli.First, hsid, hne, hres, hget, resumedWorld]

theorem resumedWorld_fs (s : sessionV1) (w : World) : (resumedWorld s w).fs = w.fs := by
  unfold resumedWorld os.Chdir
  split <;> [split; skip] <;> rfl

theorem resumedWorld_out (s : sessionV1) (w : World) : (resumedWorld s w).out = w.out := by
  unfold resumedWorld os.Chdir
  split <;> [split; skip] <;> rfl

theorem resumedWorld_dirs (s : sessionV1) (w : World) : (resumedWorld s w).dirs = w.dirs := by
  unfold resumedWorld os.Chdir
  split <;> [split; skip] <;> rfl

theorem os.Remove_ok (fs : FS) (name : String) (h : (os.Remove fs name).1 = none) :
    (os.Remove fs name).2 =
      { fs with entries := fs.entries.filter (fun e => filepath.Join fs.dir e.Name ≠ name) } := by
  unfold os.Remove at h ⊢
  cases hfind : fs.entries.find? (fun e => filepath.Join fs.dir e.Name = name) with
  | none => simp [hfind] at h
  | some e =>
    by_cases hrem : e.removable = true
    · simp [hrem]
    · simp [hfind, hrem] at h

/-- C5, as amended: with the quiet flag not set, `session resume <id>` deletes
the record of the session (`clearSession(id)`) and restores the working
directory of the caller when the event stream of the executor ends without an
event with `Done = true`; when such an event arrives, the controller saves the
record and ends the process at once (exit code 0 after a successful save): the
file system is as `saveSession` left it, `bar.Finish` and `clearSession` are
not reached, and the working directory stays where the resume put it. -/
theorem runSessionCmd_resume_clears_only_without_done (env : Env) (w : World)
    (sid sfile : String) (s : sessionV1) (info : FileInfo)
    (hquiet : env.globalQuietFlag = false)
    (hsid : strings.TrimSpace sid = sid) (hne : sid ≠ "") (hnotall : sid ≠ "all")
    (hexists : env.isSessionDirExists w = true)
    (hfile : env.getSessionFile sid = .ok sfile)
    (hstat : os.Stat w.fs sfile = .ok info)
    (hload : env.loadSession w.fs sid = .ok s)
    (hcwd : w.cwd ∈ w.dirs) :
    ((∀ ev ∈ executorEvents env s, ev.Done = false) → (os.Remove w.fs sfile).1 = none →
      runSessionCmd env ["resume", sid] w =
        .ret () { fs := (os.Remove w.fs sfile).2, cwd := w.cwd, dirs := w.dirs,
                  out := w.out ++ (executorEvents env s).flatMap eventEffects ++ [.BarFinish] } ∧
      (∀ e ∈ (os.Remove w.fs sfile).2.entries, filepath.Join w.fs.dir e.Name ≠ sfile)) ∧
    (∀ (pre post : List SessionEvent) (last : SessionEvent),
      executorEvents env s = pre ++ last :: post →
      (∀ ev ∈ pre, ev.Done = false) → last.Done = true →
      runSessionCmd env ["resume", sid] w =
        .exit (if (env.saveSession w.fs s).1 = none then 0 else 1)
          { fs := (env.saveSession w.fs s).2, cwd := (resumedWorld s w).cwd, dirs := w.dirs,
            out := w.out ++ (pre ++ [last]).flatMap eventEffects ++ [.SaveSession s] ++
              afterSave (env.saveSession w.fs s).1 s }) := by
  have hstart := runSessionResume_execute env w sid sfile s info hsid hne hfile hstat hload hcwd
  rw [← runSessionCmd_resume env w sid hexists] at hstart
  constructor
  · intro hnone hremove
    have hloop := sessionExecuteLoop_not_done env s (executorEvents env s) [] (resumedWorld s w)
      hnone
    rw [List.append_nil] at hloop
    have hexec : sessionExecute env s (resumedWorld s w) =
        .ret () { resumedWorld s w with
          out := w.out ++ (executorEvents env s).flatMap eventEffects } := by
      rw [sessionExecute_eq_loop, hloop, resumedWorld_out]
      rfl
    have hclear : clearSession env sid
        (World.emit { resumedWorld s w with
          out := w.out ++ (executorEvents env s).flatMap eventEffects } .BarFinish) =
        (none, { fs := (os.Remove w.fs sfile).2, cwd := (resumedWorld s w).cwd, dirs := w.dirs,
                 out := w.out ++ (executorEvents env s).flatMap eventEffects ++ [.BarFinish] }) := by
      cases hr : os.Remove w.fs sfile with
      | mk rerr rfs =>
        have hrerr : rerr = none := by simpa [hr] using hremove
        subst hrerr
        simp [clearSession, hnotall, hfile, World.emit, resumedWorld_fs, resumedWorld_dirs, hr]
    refine ⟨?_, ?_⟩
    · rw [hstart, hexec]
      simp only [hquiet, Bool.not_false, if_true, hclear]
      simp [os.Chdir, hcwd]
    · intro e he
      rw [os.Remove_ok w.fs sfile hremove] at he
      simpa using (List.mem_filter.1 he).2
  · intro pre post last hevents hpre hlast
    have hloop := sessionExecuteLoop_done env s pre post last (resumedWorld s w) hpre hlast
    rw [← hevents, ← sessionExecute_eq_loop] at hloop
    rw [hstart, hloop]
    simp [resumedWorld_fs, resumedWorld_out, resumedWorld_dirs]

theorem runSessionCmd_resume_clears_only_without_done_witness :
    runSessionCmd (exampleEnv false [⟨none, false⟩, ⟨none, false⟩]) ["resume", "abcdefgh"]
        exampleWorld =
      .ret () { fs := ⟨exampleSessionDir, []⟩, cwd := "/home/u", dirs := ["/home/u", "/data"],
                out := [.Recv ⟨none, false⟩, .Recv ⟨none, false⟩, .BarFinish] } := by
  have h := (runSessionCmd_resume_clears_only_without_done
    (exampleEnv false [⟨none, false⟩, ⟨none, false⟩]) exampleWorld "abcdefgh"
    (filepath.Join exampleSessionDir "abcdefgh") ⟨"1.0.0", "abcdefgh", "cp", "/data", []⟩
    ⟨"abcdefgh", 0o600, true, "cp"⟩ rfl (by decide) (by decide) (by decide) rfl rfl
    (by decide) (by decide) (by decide)).1 (by decide) (by decide)
  exact h.1.trans (by decide)

/-- C5, as stated, fails: with the quiet flag not set and one event with
`Done = true`, `session resume abcdefgh` saves the record and exits with code
0; the file of the session is still in the session directory, `bar.Finish` was
not called, and the working directory is the root path of the record, not the
directory of the caller. -/
theorem runSessionCmd_resume_done_keeps_record :
    (exampleEnv false [⟨none, true⟩]).globalQuietFlag = false ∧
    (runSessionCmd (exampleEnv false [⟨none, true⟩]) ["resume", "abcdefgh"]
      exampleWorld).exitCode = some 0 ∧
    savedRecords (runSessionCmd (exampleEnv false [⟨none, true⟩]) ["resume", "abcdefgh"]
      exampleWorld).world.out = [⟨"1.0.0", "abcdefgh", "cp", "/data", []⟩] ∧
    (runSessionCmd (exampleEnv false [⟨none, true⟩]) ["resume", "abcdefgh"]
      exampleWorld).world.fs.entries.map FileInfo.Name = ["abcdefgh"] ∧
    Effect.BarFinish ∉ (runSessionCmd (exampleEnv false [⟨none, true⟩]) ["resume", "abcdefgh"]
      exampleWorld).world.out ∧
    (runSessionCmd (exampleEnv false [⟨none, true⟩]) ["resume", "abcdefgh"]
      exampleWorld).world.cwd = "/data" ∧
    exampleWorld.cwd = "/home/u" ∧
    ¬ ((∀ e ∈ (runSessionCmd (exampleEnv false [⟨none, true⟩]) ["resume", "abcdefgh"]
          exampleWorld).world.fs.entries, e.Name ≠ "abcdefgh") ∧
       (runSessionCmd (exampleEnv false [⟨none, true⟩]) ["resume", "abcdefgh"]
          exampleWorld).world.cwd = exampleWorld.cwd) := by
  decide

/-! ## Session identifiers -/

theorem sessionLetters_getD_isAsciiLetter :
    ∀ k < 52, isAsciiLetter (sessionLetters.getD k 'a') = true := by
  decide

theorem newSID_validSessionID (draw : Nat → Nat) : validSessionID (newSID 8 draw) = true := by
  simp only [validSessionID, newSID, List.length_map, List.length_range, List.all_eq_true,
    List.mem_map, decide_eq_true_eq, Bool.and_eq_true, Bool.decide_and]
  refine ⟨trivial, ?_⟩
  rintro c ⟨i, _, rfl⟩
  exact sessionLetters_getD_isAsciiLetter _ (Nat.mod_lt _ (by decide))

theorem newSession_validSessionID (version : String) (w : World) (fuel : Nat) :
    ∀ (draw : Nat → Nat) (s : sessionV1), newSession version w draw fuel = .ok s →
      validSessionID s.SessionID = true := by
  induction fuel with
  | zero => intro draw s h; simp [newSession] at h
  | succ fuel ih =>
    intro draw s h
    unfold newSession at h
    split at h
    · exact ih _ s h
    · cases h
      exact newSID_validSessionID draw

theorem newSession_returns (version : String) (w : World) (fuel : Nat) :
    ∀ (draw : Nat → Nat) (k : Nat), k < fuel →
      (w.fs.entries.any fun e => e.Name = newSID 8 (drawsOfAttempt draw k)) = false →
      ∃ s, newSession version w draw fuel = .ok s := by
  induction fuel with
  | zero => intro draw k hk; omega
  | succ fuel ih =>
    intro draw k hk hfree
    unfold newSession
    split
    · rename_i hcoll
      cases k with
      | zero =>
        have h0 : drawsOfAttempt draw 0 = draw := by funext i; simp [drawsOfAttempt]
        rw [h0, hcoll] at hfree
        cases hfree
      | succ k =>
        have hshift : drawsOfAttempt (fun i => draw (i + 8)) k = drawsOfAttempt draw (k + 1) := by
          funext i
          have hidx : i + 8 * k + 8 = i + 8 * (k + 1) := by omega
          simp only [drawsOfAttempt, hidx]
        exact ih (fun i => draw (i + 8)) k (by omega) (by rw [hshift]; exact hfree)
    · exact ⟨_, rfl⟩

/-- C10: whatever values the generator draws, `newSID 8` has length 8 and
consists of ASCII letters only, so it matches `^[A-Za-z]{8}$`; the same holds
for the `SessionID` of every record `newSession` returns, and `newSession`
does return a record as soon as one of its attempts draws an identifier that
is not taken in the session directory. -/
theorem newSID_matches_pattern (version : String) (w : World) (draw : Nat → Nat) (fuel : Nat) :
    validSessionID (newSID 8 draw) = true ∧
    (newSID 8 draw).length = 8 ∧
    (∀ c ∈ (newSID 8 draw).data, isAsciiLetter c = true) ∧
    (∀ s, newSession version w draw fuel = .ok s →
      validSessionID s.SessionID = true ∧ s.SessionID.length = 8 ∧ s.URLs = []) ∧
    (∀ k < fuel, (w.fs.entries.any fun e => e.Name = newSID 8 (drawsOfAttempt draw k)) = false →
      ∃ s, newSession version w draw fuel = .ok s ∧ validSessionID s.SessionID = true) := by
  have hvalid := newSID_validSessionID draw
  have hsplit : ∀ sid : String, validSessionID sid = true →
      sid.length = 8 ∧ ∀ c ∈ sid.data, isAsciiLetter c = true := by
    intro sid h
    simp only [validSessionID, Bool.decide_and, Bool.and_eq_true, decide_eq_true_eq,
      List.all_eq_true] at h
    exact ⟨h.1, h.2⟩
  have hurls : ∀ (fuel : Nat) (draw : Nat → Nat) (s : sessionV1),
      newSession version w draw fuel = .ok s → s.URLs = [] := by
    intro fuel
    induction fuel with
    | zero => intro draw s h; simp [newSession] at h
    | succ fuel ih =>
      intro draw s h
      unfold newSession at h
      split at h
      · exact ih _ s h
      · cases h; rfl
  refine ⟨hvalid, (hsplit _ hvalid).1, (hsplit _ hvalid).2, ?_, ?_⟩
  · intro s hs
    have hv := newSession_validSessionID version w fuel draw s hs
    exact ⟨hv, (hsplit _ hv).1, hurls fuel draw s hs⟩
  · intro k hk hfree
    obtain ⟨s, hs⟩ := newSession_returns version w fuel draw k hk hfree
    exact ⟨s, hs, newSession_validSessionID version w fuel draw s hs⟩

theorem newSID_matches_pattern_witness :
    newSID 8 (fun i => 7 * i + 30) = "ELSZgnuB" ∧
    validSessionID (newSID 8 (fun i => 7 * i + 30)) = true ∧
    (∃ s, newSession "1.0.0" exampleWorld (fun i => 7 * i + 30) 1 = .ok s ∧
      validSessionID s.SessionID = true) := by
  have h := newSID_matches_pattern "1.0.0" exampleWorld (fun i => 7 * i + 30) 1
  exact ⟨by decide, h.1, h.2.2.2.2 0 (by decide) (by decide)⟩

end Mc
